import Mathlib

/-!
Shallow embedding of the inventory stock-accounting subsystem of the
ofgen-server repository (src/modules/inventory): the stock-level invariant
engine (mongoose pre-save hooks and the cron reconciliation sweep), the
transaction ledger (`createTransaction` / `updateStockLevels`) and the
reserved-stock sub-protocol (`updateReservedStock`).

Modelling conventions:
- JS numbers that hold stock quantities are modelled as `Int` (the code never
  rounds or truncates them and the DTO layer does not forbid negatives for
  transaction quantities).
- Mongo ObjectIds are modelled as `Nat`.
- A possibly-`undefined` numeric field is `Option Int`; the JS idiom `x || 0`
  is `orZero` (`undefined`/`0` become `0`, any other number is kept).
- Document fields that none of the modelled operations read or write
  (prices, suppliers, timestamps, notes, the transaction reference string,
  `maximumLevel`, `reorderPoint`, ...) are omitted from the structures.
- A thrown `NotFoundException`/`BadRequestException` is an `Except.error`
  carrying a constructor that names the throw site; `isBadRequest`/`isNotFound`
  record which NestJS exception class each one is.
-/

namespace Ofgen

/-- The JS idiom `x || 0` applied to a possibly-undefined number: `undefined`
and `0` become `0`, every other value (including negatives) is kept. -/
def orZero : Option Int → Int
  | none => 0
  | some v => v

/-- Stock status enumeration (inventory.schema.ts, `StockStatus`). -/
inductive StockStatus
  | IN_STOCK
  | LOW_STOCK
  | OUT_OF_STOCK
  | ON_ORDER
  | DISCONTINUED
  | QUARANTINED
deriving DecidableEq, Repr

/-- Transaction type enumeration (inventory.schema.ts, `TransactionType`). -/
inductive TransactionType
  | PURCHASE
  | SALE
  | TRANSFER
  | ADJUSTMENT_IN
  | ADJUSTMENT_OUT
  | RETURN
  | ALLOCATION
  | CONSUMPTION
  | DAMAGE
  | MAINTENANCE
deriving DecidableEq, Repr

/-- One per-location stock record embedded in an inventory item
(inventory.schema.ts, `StockLevel`). `reservedStock` is `Option Int` because
the schema allows it to be absent; `maximumLevel` and `reorderPoint` are not
read by any modelled operation and are omitted. -/
structure StockLevel where
  location : Nat
  currentStock : Int
  reservedStock : Option Int
  availableStock : Int
  minimumLevel : Int
deriving DecidableEq, Repr

/-- An inventory item, reduced to the fields the stock-accounting logic reads
and writes (inventory.schema.ts, `InventoryItem`). -/
structure InventoryItem where
  stockLevels : List StockLevel
  stockStatus : StockStatus
deriving DecidableEq, Repr

/-- Total current stock summed over the stock levels: the
`reduce((t, l) => t + l.currentStock, 0) || 0` computation that appears in the
pre-save status hook, the cron sweep, `calculateItemStats` and
`calculateStockStats`. -/
def totalCurrent : List StockLevel → Int
  | [] => 0
  | l :: ls => l.currentStock + totalCurrent ls

/-- Minimum of a list of integers, `none` on the empty list. Models
`Math.min(...xs)`, whose value on an empty spread is `Infinity`; call sites
handle the `none` case the way `Infinity` behaves there. -/
def listMin : List Int → Option Int
  | [] => none
  | x :: xs => some (xs.foldl min x)

/-- The status formula shared verbatim by the pre-save status hook
(inventory.schema.ts lines 766-783) and the cron sweep
(`InventoryCronService.handleStockStatusAlignment`): OUT_OF_STOCK when the
total current stock is 0, LOW_STOCK when it is at most the minimum of the
per-location `minimumLevel`s, IN_STOCK otherwise. When `stockLevels` is empty
`Math.min()` is `Infinity`, so the comparison `total <= Infinity` holds; that
branch is unreachable because the total is then 0. -/
def deriveStockStatus (ls : List StockLevel) : StockStatus :=
  let total := totalCurrent ls
  if total = 0 then .OUT_OF_STOCK
  else
    match listMin (ls.map (fun l => l.minimumLevel)) with
    | none => .LOW_STOCK
    | some m => if total ≤ m then .LOW_STOCK else .IN_STOCK

/-- The availability pre-save hook applied to one level
(inventory.schema.ts lines 786-796): `reservedStock = reservedStock || 0;
availableStock = Math.max(0, currentStock - reservedStock)`. -/
def recomputeLevel (l : StockLevel) : StockLevel :=
  let r := orZero l.reservedStock
  { l with reservedStock := some r, availableStock := max 0 (l.currentStock - r) }

/-- One `document.save()` of an inventory item: mongoose runs the two
pre-save hooks in registration order (status hook first, then the
availability hook over every stock level) and persists the result. -/
def saveItem (item : InventoryItem) : InventoryItem :=
  let withStatus := { item with stockStatus := deriveStockStatus item.stockLevels }
  { withStatus with stockLevels := withStatus.stockLevels.map recomputeLevel }

/-- First stock level whose `location` equals the given id:
`stockLevels.find(level => level.location.toString() === locId)`. -/
def findLevel (loc : Nat) : List StockLevel → Option StockLevel
  | [] => none
  | l :: ls => if l.location = loc then some l else findLevel loc ls

/-- Replace the first stock level whose `location` equals the given id by the
image of `f`; models an in-place mutation of the object returned by
`stockLevels.find(...)`. -/
def updateFirstLevel (loc : Nat) (f : StockLevel → StockLevel) :
    List StockLevel → List StockLevel
  | [] => []
  | l :: ls =>
    if l.location = loc then f l :: ls else l :: updateFirstLevel loc f ls

/-- Errors raised by the modelled operations; each constructor names one
throw site in InventoryService. -/
inductive TxError
  | itemNotFound
  | invalidLocations
  | toLocationRequired
  | fromLocationRequired
  | bothLocationsRequired
  | destinationNotInStockLevels
  | sourceNotInStockLevels
  | locationNotInStockLevels
  | insufficientStock
  | insufficientAvailableStock
  | quantityRequired
  | locationNotInItemStockLevels
  | cannotReserveMoreThanAvailable
  | cannotUnreserveMoreThanReserved
deriving DecidableEq, Repr

/-- Which errors are raised as `BadRequestException` in the source. -/
def TxError.isBadRequest : TxError → Bool
  | .invalidLocations | .toLocationRequired | .fromLocationRequired
  | .bothLocationsRequired | .insufficientStock
  | .insufficientAvailableStock | .quantityRequired
  | .cannotReserveMoreThanAvailable
  | .cannotUnreserveMoreThanReserved => true
  | _ => false

/-- Which errors are raised as `NotFoundException` in the source. -/
def TxError.isNotFound : TxError → Bool
  | .itemNotFound | .destinationNotInStockLevels | .sourceNotInStockLevels
  | .locationNotInStockLevels | .locationNotInItemStockLevels => true
  | _ => false

/-- The fields of `CreateTransactionDto` read by the ledger logic; prices,
supplier, project, performer, date, notes and document reference are
pass-through metadata and are omitted. -/
structure CreateTransactionDto where
  inventoryItem : Nat
  transactionType : TransactionType
  quantity : Int
  fromLocation : Option Nat
  toLocation : Option Nat
deriving DecidableEq, Repr

/-- A persisted `InventoryTransaction` record, reduced to the fields the
modelled write paths populate or back-fill. -/
structure TxnRecord where
  transactionType : TransactionType
  quantity : Int
  fromLocation : Option Nat
  toLocation : Option Nat
  stockBefore : Option Int
  stockAfter : Option Int
deriving DecidableEq, Repr

/-- The persisted state the ledger operates on: the inventory items
collection (keyed by id), the stock-location registry (the set of existing
location ids) and the transactions collection in insertion order. -/
structure LedgerState where
  items : List (Nat × InventoryItem)
  locations : List Nat
  transactions : List TxnRecord
deriving DecidableEq, Repr

/-- `inventoryModel.findById`: first binding with the given key. -/
def lookupItem (id : Nat) : List (Nat × InventoryItem) → Option InventoryItem
  | [] => none
  | (k, v) :: rest => if k = id then some v else lookupItem id rest

/-- Persisting a mutated item document back into the collection: replace the
first binding with the given key. -/
def storeItem (id : Nat) (v : InventoryItem) :
    List (Nat × InventoryItem) → List (Nat × InventoryItem)
  | [] => []
  | (k, w) :: rest =>
    if k = id then (k, v) :: rest else (k, w) :: storeItem id v rest

/-- `InventoryService.validateTransactionLocations`: collect the provided
location ids and check that `countDocuments(\x7b _id: \x7b $in: ids \x7d \x7d)`
equals the number of provided ids. Because the count is over distinct
documents, supplying the same id twice makes the check fail. -/
def validateTransactionLocations (dto : CreateTransactionDto)
    (registry : List Nat) : Bool :=
  let ids := dto.fromLocation.toList ++ dto.toLocation.toList
  if ids.length = 0 then true
  else (registry.filter (fun r => ids.contains r)).length == ids.length

/-- The `forEach` recompute pass at the end of
`InventoryService.updateStockLevels` followed by `item.save()` (which runs
both pre-save hooks again). -/
def persistItem (item : InventoryItem) : InventoryItem :=
  saveItem { item with stockLevels := item.stockLevels.map recomputeLevel }

/-- The `switch (transactionType)` block of
`InventoryService.updateStockLevels`: validates the required locations and
the stock sufficiency and produces the mutated `stockLevels` array (mutation
of the object found by `findLevel` is modelled by `updateFirstLevel`). The
groups with fall-through are exactly as in the source. -/
def dispatchMutation (dto : CreateTransactionDto) (ls : List StockLevel) :
    Except TxError (List StockLevel) :=
  match dto.transactionType with
  | .PURCHASE | .RETURN | .ADJUSTMENT_IN =>
    match dto.toLocation with
    | none => .error .toLocationRequired
    | some loc =>
      match findLevel loc ls with
      | none => .error .destinationNotInStockLevels
      | some _ =>
        .ok (updateFirstLevel loc
          (fun l => { l with currentStock := l.currentStock + dto.quantity }) ls)
  | .SALE | .CONSUMPTION | .DAMAGE | .MAINTENANCE | .ADJUSTMENT_OUT =>
    match dto.fromLocation with
    | none => .error .fromLocationRequired
    | some loc =>
      match findLevel loc ls with
      | none => .error .sourceNotInStockLevels
      | some lvl =>
        if lvl.currentStock < dto.quantity then .error .insufficientStock
        else .ok (updateFirstLevel loc
          (fun l => { l with currentStock := l.currentStock - dto.quantity }) ls)
  | .TRANSFER =>
    match dto.fromLocation, dto.toLocation with
    | some fromLoc, some toLoc =>
      match findLevel fromLoc ls, findLevel toLoc ls with
      | some fromLvl, some _ =>
        if fromLvl.currentStock < dto.quantity then .error .insufficientStock
        else .ok (updateFirstLevel toLoc
          (fun l => { l with currentStock := l.currentStock + dto.quantity })
          (updateFirstLevel fromLoc
            (fun l => { l with currentStock := l.currentStock - dto.quantity })
            ls))
      | _, _ => .error .locationNotInStockLevels
    | _, _ => .error .bothLocationsRequired
  | .ALLOCATION =>
    match dto.fromLocation with
    | none => .error .fromLocationRequired
    | some loc =>
      match findLevel loc ls with
      | none => .error .sourceNotInStockLevels
      | some lvl =>
        let r := orZero lvl.reservedStock
        if lvl.currentStock - r < dto.quantity then
          .error .insufficientAvailableStock
        else .ok (updateFirstLevel loc
          (fun l =>
            { l with
              reservedStock := some (r + dto.quantity),
              availableStock := max 0 (l.currentStock - (r + dto.quantity)) })
          ls)

/-- `InventoryService.updateStockLevels`: run the type dispatch on the
item's stock levels; on success the recompute pass and `item.save()` persist
the mutated item, on error nothing is persisted. -/
def updateStockLevels (dto : CreateTransactionDto) (item : InventoryItem) :
    Except TxError InventoryItem :=
  match dispatchMutation dto item.stockLevels with
  | .error e => .error e
  | .ok ls => .ok (persistItem { item with stockLevels := ls })

/-- The transaction shell persisted by step 4 of
`InventoryService.createTransaction`: all supplied fields plus the
`stockBefore` snapshot; `stockAfter` is not set. -/
def mkTxnShell (dto : CreateTransactionDto) (item : InventoryItem) : TxnRecord :=
  { transactionType := dto.transactionType
    quantity := dto.quantity
    fromLocation := dto.fromLocation
    toLocation := dto.toLocation
    stockBefore := some (totalCurrent item.stockLevels)
    stockAfter := none }

/-- `InventoryService.createTransaction` as a state transformer: returns the
persisted state after the request together with the error it rethrew, if any.
Steps: item lookup, location-registry validation, before-snapshot, shell
insert, stock mutation via `updateStockLevels`, after-snapshot back-fill.
An error thrown after the shell insert leaves the shell persisted. -/
def createTransaction (dto : CreateTransactionDto) (st : LedgerState) :
    LedgerState × Option TxError :=
  match lookupItem dto.inventoryItem st.items with
  | none => (st, some .itemNotFound)
  | some item =>
    if validateTransactionLocations dto st.locations then
      let shell := mkTxnShell dto item
      let st1 := { st with transactions := st.transactions ++ [shell] }
      match updateStockLevels dto item with
      | .error e => (st1, some e)
      | .ok item' =>
        let st2 := { st1 with
          items := storeItem dto.inventoryItem item' st1.items }
        let st3 := { st2 with
          transactions := st.transactions ++
            [{ shell with stockAfter := some (totalCurrent item'.stockLevels) }] }
        (st3, none)
    else (st, some .invalidLocations)

/-- The status computed by `InventoryService.calculateItemStats` for a
returned item view: OUT_OF_STOCK when the total current stock is 0, else
LOW_STOCK when `stockLevels.some(sl => sl.currentStock <= (sl.minimumLevel || 0))`,
else IN_STOCK. Note this per-location comparison differs from the
total-versus-minimum rule of the pre-save hook. -/
def calculateItemStatsStatus (ls : List StockLevel) : StockStatus :=
  let total := totalCurrent ls
  if total = 0 then .OUT_OF_STOCK
  else if ls.any (fun l => l.currentStock ≤ l.minimumLevel) then .LOW_STOCK
  else .IN_STOCK

/-- The status rule exactly as the specification words it (for comparison
with the code): OUT_OF_STOCK iff total current stock is 0; LOW_STOCK iff the
total is nonzero and at most every per-location minimum threshold (that is,
at most their minimum); IN_STOCK otherwise. -/
def specStatusRule (ls : List StockLevel) : StockStatus :=
  let total := totalCurrent ls
  if total = 0 then .OUT_OF_STOCK
  else if ls.all (fun l => total ≤ l.minimumLevel) then .LOW_STOCK
  else .IN_STOCK

/-- One item's pass of `InventoryCronService.handleStockStatusAlignment`:
re-derive the status with the same formula as the pre-save hook; when it
differs from the stored one, assign it and `save()` the item (which runs the
pre-save hooks). The boolean records whether a write happened. -/
def sweepItem (item : InventoryItem) : InventoryItem × Bool :=
  let newStatus := deriveStockStatus item.stockLevels
  if item.stockStatus = newStatus then (item, false)
  else (saveItem { item with stockStatus := newStatus }, true)

/-- The full reconciliation sweep over the items collection: each item is
processed independently; the second component is `updatedCount`, the number
of item writes performed. -/
def handleStockStatusAlignment (items : List InventoryItem) :
    List InventoryItem × Nat :=
  let results := items.map sweepItem
  (results.map Prod.fst, (results.filter Prod.snd).length)

/-- Reserved-stock action enumeration (inventory.dto.ts,
`ReservedStockAction`). -/
inductive ReservedStockAction
  | INCREASE
  | DECREASE
  | UNRESERVE_ALL
deriving DecidableEq, Repr

/-- The fields of `ReservedStockUpdateDto` read by the logic; `performedBy`
and `notes` are pass-through metadata and are omitted. `quantity` is optional
in the DTO. -/
structure ReservedStockUpdateDto where
  inventoryItem : Nat
  location : Nat
  action : ReservedStockAction
  quantity : Option Int
deriving DecidableEq, Repr

/-- The JS truth of `!quantity` on the optional DTO field: true when the
field is absent or `0`. -/
def quantityFalsy : Option Int → Bool
  | none => true
  | some q => q == 0

/-- The quantity the audit-record step of `updateReservedStock` sees after
the switch: for UNRESERVE_ALL with a positive prior reservation the code
overwrites `dto.quantity` with the released amount, otherwise the request's
quantity is kept. -/
def effectiveQuantity (dto : ReservedStockUpdateDto) (priorReserved : Int) :
    Option Int :=
  match dto.action with
  | .UNRESERVE_ALL =>
    if 0 < priorReserved then some priorReserved else dto.quantity
  | _ => dto.quantity

/-- `InventoryService.updateReservedStock` on the fetched item and the
transactions collection: validates the quantity for INCREASE/DECREASE,
locates the stock level, mutates `reservedStock` per the action, recomputes
`availableStock`, saves the item (pre-save hooks run), and appends an audit
transaction when the (possibly overwritten) `dto.quantity` is positive:
ALLOCATION for INCREASE, RETURN for DECREASE and UNRESERVE_ALL, with
`fromLocation` the given location and no `toLocation`. -/
def updateReservedStock (dto : ReservedStockUpdateDto) (item : InventoryItem)
    (txns : List TxnRecord) :
    Except TxError (InventoryItem × List TxnRecord) :=
  if (dto.action = .INCREASE ∨ dto.action = .DECREASE) ∧
      quantityFalsy dto.quantity then
    .error .quantityRequired
  else
    match findLevel dto.location item.stockLevels with
    | none => .error .locationNotInItemStockLevels
    | some lvl =>
      let r := orZero lvl.reservedStock
      let q := orZero dto.quantity
      let step : Except TxError Int :=
        match dto.action with
        | .INCREASE =>
          if lvl.currentStock - r < q then
            .error .cannotReserveMoreThanAvailable
          else .ok (r + q)
        | .DECREASE =>
          if r < q then .error .cannotUnreserveMoreThanReserved
          else .ok (r - q)
        | .UNRESERVE_ALL => .ok 0
      match step with
      | .error e => .error e
      | .ok newReserved =>
        let lvl' := { lvl with
          reservedStock := some newReserved,
          availableStock := max 0 (lvl.currentStock - newReserved) }
        let item' := saveItem { item with
          stockLevels :=
            updateFirstLevel dto.location (fun _ => lvl') item.stockLevels }
        let txns' :=
          match effectiveQuantity dto r with
          | some eq =>
            if 0 < eq then
              txns ++ [{ transactionType :=
                           match dto.action with
                           | .INCREASE => TransactionType.ALLOCATION
                           | _ => TransactionType.RETURN
                         quantity := eq
                         fromLocation := some dto.location
                         toLocation := none
                         stockBefore := none
                         stockAfter := none }]
            else txns
          | none => txns
        .ok (item', txns')

/-- The five transaction types handled by the stock-decrease branch of the
dispatch switch. -/
def isDecreaseType : TransactionType → Bool
  | .SALE | .CONSUMPTION | .DAMAGE | .MAINTENANCE | .ADJUSTMENT_OUT => true
  | _ => false

theorem recomputeLevel_location (l : StockLevel) :
    (recomputeLevel l).location = l.location := rfl

theorem recomputeLevel_currentStock (l : StockLevel) :
    (recomputeLevel l).currentStock = l.currentStock := rfl

theorem recomputeLevel_minimumLevel (l : StockLevel) :
    (recomputeLevel l).minimumLevel = l.minimumLevel := rfl

theorem recomputeLevel_orZero (l : StockLevel) :
    orZero (recomputeLevel l).reservedStock = orZero l.reservedStock := rfl

theorem recomputeLevel_availableStock (l : StockLevel) :
    (recomputeLevel l).availableStock =
      max 0 (l.currentStock - orZero l.reservedStock) := rfl

theorem saveItem_stockLevels (item : InventoryItem) :
    (saveItem item).stockLevels = item.stockLevels.map recomputeLevel := rfl

theorem saveItem_stockStatus (item : InventoryItem) :
    (saveItem item).stockStatus = deriveStockStatus item.stockLevels := rfl

theorem persistItem_stockLevels (item : InventoryItem) :
    (persistItem item).stockLevels =
      (item.stockLevels.map recomputeLevel).map recomputeLevel := rfl

theorem findLevel_map (g : StockLevel → StockLevel)
    (hg : ∀ l, (g l).location = l.location) (loc : Nat) :
    ∀ ls, findLevel loc (ls.map g) = (findLevel loc ls).map g := by
  intro ls
  induction ls with
  | nil => rfl
  | cons l ls ih =>
    simp only [List.map_cons, findLevel, hg l]
    by_cases h : l.location = loc
    · simp [h]
    · simp [h, ih]

theorem findLevel_updateFirst_self (loc : Nat) (f : StockLevel → StockLevel)
    (hf : ∀ l, (f l).location = l.location) :
    ∀ ls, findLevel loc (updateFirstLevel loc f ls) =
      (findLevel loc ls).map f := by
  intro ls
  induction ls with
  | nil => rfl
  | cons l ls ih =>
    by_cases h : l.location = loc
    · simp [updateFirstLevel, findLevel, h, hf l]
    · simp [updateFirstLevel, findLevel, h, ih]

theorem findLevel_updateFirst_ne (loc loc' : Nat) (f : StockLevel → StockLevel)
    (hf : ∀ l, (f l).location = l.location) (hne : loc' ≠ loc) :
    ∀ ls, findLevel loc (updateFirstLevel loc' f ls) = findLevel loc ls := by
  intro ls
  induction ls with
  | nil => rfl
  | cons l ls ih =>
    have hne' : loc ≠ loc' := fun hh => hne hh.symm
    by_cases h : l.location = loc'
    · have hl : l.location ≠ loc := by rw [h]; exact hne
      simp [updateFirstLevel, findLevel, h, hf l, hl, hne]
    · by_cases h2 : l.location = loc
      · simp [updateFirstLevel, findLevel, h, h2, hne']
      · simp [updateFirstLevel, findLevel, h, h2, ih]

theorem findLevel_some_location {loc : Nat} :
    ∀ {ls : List StockLevel} {l : StockLevel},
      findLevel loc ls = some l → l.location = loc := by
  intro ls
  induction ls with
  | nil => intro l h; simp [findLevel] at h
  | cons x xs ih =>
    intro l h
    by_cases hx : x.location = loc
    · simp only [findLevel, hx, if_true, Option.some.injEq] at h
      rw [← h]
      exact hx
    · simp only [findLevel, hx, if_false] at h
      exact ih h

theorem findLevel_updateFirst_found {loc : Nat} {lvl : StockLevel}
    (f : StockLevel → StockLevel) (hf : (f lvl).location = lvl.location) :
    ∀ {ls : List StockLevel}, findLevel loc ls = some lvl →
      findLevel loc (updateFirstLevel loc f ls) = some (f lvl) := by
  intro ls
  induction ls with
  | nil => intro h; simp [findLevel] at h
  | cons x xs ih =>
    intro h
    by_cases hx : x.location = loc
    · simp only [findLevel, hx, if_true, Option.some.injEq] at h
      subst h
      simp [updateFirstLevel, hx, findLevel, hf]
    · simp only [findLevel, hx, if_false] at h
      simp only [updateFirstLevel, hx, if_false, findLevel]
      exact ih h

theorem map_proj_updateFirst {α : Type} (p : StockLevel → α) (loc : Nat)
    (f : StockLevel → StockLevel) (hf : ∀ l, p (f l) = p l) :
    ∀ ls, (updateFirstLevel loc f ls).map p = ls.map p := by
  intro ls
  induction ls with
  | nil => rfl
  | cons l ls ih =>
    by_cases h : l.location = loc
    · simp [updateFirstLevel, h, hf l]
    · simp [updateFirstLevel, h, ih]

theorem map_proj_map {α : Type} (g : StockLevel → StockLevel)
    (p : StockLevel → α) (h : ∀ l, p (g l) = p l) :
    ∀ ls : List StockLevel, (ls.map g).map p = ls.map p := by
  intro ls
  induction ls with
  | nil => rfl
  | cons l ls ih => simp [h l, ih]

theorem totalCurrent_map (g : StockLevel → StockLevel)
    (hg : ∀ l, (g l).currentStock = l.currentStock) :
    ∀ ls, totalCurrent (ls.map g) = totalCurrent ls := by
  intro ls
  induction ls with
  | nil => rfl
  | cons l ls ih => simp [totalCurrent, hg l, ih]

theorem deriveStockStatus_map (g : StockLevel → StockLevel)
    (hcur : ∀ l, (g l).currentStock = l.currentStock)
    (hmin : ∀ l, (g l).minimumLevel = l.minimumLevel) (ls : List StockLevel) :
    deriveStockStatus (ls.map g) = deriveStockStatus ls := by
  unfold deriveStockStatus
  rw [totalCurrent_map g hcur ls,
      map_proj_map g (fun l => l.minimumLevel) hmin ls]

theorem availableStock_clamped_of_mem_map (ls : List StockLevel) :
    ∀ l ∈ ls.map recomputeLevel,
      l.availableStock = max 0 (l.currentStock - orZero l.reservedStock) := by
  intro l hl
  rcases List.mem_map.mp hl with ⟨l0, _, rfl⟩
  rfl

theorem updateStockLevels_ok_of {dto : CreateTransactionDto}
    {item : InventoryItem} {ls : List StockLevel}
    (h : dispatchMutation dto item.stockLevels = .ok ls) :
    updateStockLevels dto item =
      .ok (persistItem { item with stockLevels := ls }) := by
  unfold updateStockLevels
  rw [h]

theorem updateStockLevels_error_of {dto : CreateTransactionDto}
    {item : InventoryItem} {e : TxError}
    (h : dispatchMutation dto item.stockLevels = .error e) :
    updateStockLevels dto item = .error e := by
  unfold updateStockLevels
  rw [h]

theorem updateStockLevels_ok_inv {dto : CreateTransactionDto}
    {item item' : InventoryItem}
    (h : updateStockLevels dto item = .ok item') :
    ∃ ls, dispatchMutation dto item.stockLevels = .ok ls ∧
      item' = persistItem { item with stockLevels := ls } := by
  unfold updateStockLevels at h
  cases hd : dispatchMutation dto item.stockLevels with
  | error e => rw [hd] at h; exact absurd h (by simp)
  | ok ls =>
    rw [hd] at h
    injection h with h1
    exact ⟨ls, rfl, h1.symm⟩

theorem dispatchMutation_decrease {dto : CreateTransactionDto}
    (hdec : isDecreaseType dto.transactionType = true) (ls : List StockLevel) :
    dispatchMutation dto ls =
      (match dto.fromLocation with
       | none => .error .fromLocationRequired
       | some loc =>
         match findLevel loc ls with
         | none => .error .sourceNotInStockLevels
         | some lvl =>
           if lvl.currentStock < dto.quantity then .error .insufficientStock
           else .ok (updateFirstLevel loc
             (fun l => { l with currentStock := l.currentStock - dto.quantity })
             ls)) := by
  rcases dto with ⟨i, tt, q, fl, tl⟩
  cases tt <;> simp [isDecreaseType] at hdec <;> rfl

theorem le_foldl_min (t a : Int) :
    ∀ xs : List Int, (t ≤ xs.foldl min a ↔ t ≤ a ∧ ∀ x ∈ xs, t ≤ x) := by
  intro xs
  induction xs generalizing a with
  | nil => simp
  | cons x xs ih =>
    simp only [List.foldl_cons, List.mem_cons]
    rw [ih]
    constructor
    · rintro ⟨h1, h2⟩
      rw [le_min_iff] at h1
      exact ⟨h1.1, fun y hy => hy.elim (fun e => e ▸ h1.2) (h2 y)⟩
    · rintro ⟨h1, h2⟩
      exact ⟨le_min_iff.mpr ⟨h1, h2 x (Or.inl rfl)⟩,
        fun y hy => h2 y (Or.inr hy)⟩

theorem le_listMin_iff (t : Int) {xs : List Int} {m : Int}
    (h : listMin xs = some m) : (t ≤ m ↔ ∀ x ∈ xs, t ≤ x) := by
  cases xs with
  | nil => simp [listMin] at h
  | cons x xs =>
    simp only [listMin, Option.some.injEq] at h
    subst h
    rw [le_foldl_min]
    simp [List.forall_mem_cons, and_comm]

theorem deriveStockStatus_eq_spec (ls : List StockLevel) :
    deriveStockStatus ls = specStatusRule ls := by
  unfold deriveStockStatus specStatusRule
  by_cases h0 : totalCurrent ls = 0
  · simp [h0]
  · simp only [h0, if_false]
    cases hm : listMin (ls.map (fun l => l.minimumLevel)) with
    | none =>
      cases ls with
      | nil => simp [totalCurrent] at h0
      | cons l ls => simp [listMin] at hm
    | some m =>
      have hiff := le_listMin_iff (totalCurrent ls) hm
      by_cases hle : totalCurrent ls ≤ m
      · have hall : ls.all (fun l => totalCurrent ls ≤ l.minimumLevel) = true := by
          rw [List.all_eq_true]
          intro l hl
          have := (hiff.mp hle) l.minimumLevel (List.mem_map.mpr ⟨l, hl, rfl⟩)
          exact decide_eq_true this
        simp [hle, hall]
      · have hall : ls.all (fun l => totalCurrent ls ≤ l.minimumLevel) = false := by
          rw [Bool.eq_false_iff]
          intro hc
          apply hle
          rw [hiff]
          intro x hx
          rcases List.mem_map.mp hx with ⟨l, hl, rfl⟩
          exact of_decide_eq_true (List.all_eq_true.mp hc l hl)
        simp [hle, hall]

theorem calculateItemStatsStatus_out_iff (ls : List StockLevel) :
    calculateItemStatsStatus ls = .OUT_OF_STOCK ↔ totalCurrent ls = 0 := by
  unfold calculateItemStatsStatus
  by_cases h0 : totalCurrent ls = 0
  · simp [h0]
  · by_cases h1 : ls.any (fun l => l.currentStock ≤ l.minimumLevel)
    · simp [h0, h1]
    · simp [h0, h1]

theorem calculateItemStatsStatus_low_iff (ls : List StockLevel) :
    calculateItemStatsStatus ls = .LOW_STOCK ↔
      totalCurrent ls ≠ 0 ∧ ∃ l ∈ ls, l.currentStock ≤ l.minimumLevel := by
  unfold calculateItemStatsStatus
  by_cases h0 : totalCurrent ls = 0
  · simp [h0]
  · by_cases h1 : ls.any (fun l => l.currentStock ≤ l.minimumLevel)
    · simp only [List.any_eq_true, decide_eq_true_eq] at h1
      simp [h0, List.any_eq_true, h1]
    · simp only [List.any_eq_true, decide_eq_true_eq, not_exists,
        not_and] at h1
      simp only [h0, if_false]
      constructor
      · intro hc
        simp only [List.any_eq_true, decide_eq_true_eq] at hc
        split at hc
        · rename_i hh
          exact absurd hh (by simp only [not_exists, not_and]; exact h1)
        · exact absurd hc (by simp)
      · rintro ⟨-, l, hl, hle⟩
        exact absurd hle (h1 l hl)

theorem calculateItemStatsStatus_in_iff (ls : List StockLevel) :
    calculateItemStatsStatus ls = .IN_STOCK ↔
      totalCurrent ls ≠ 0 ∧ ∀ l ∈ ls, l.minimumLevel < l.currentStock := by
  unfold calculateItemStatsStatus
  by_cases h0 : totalCurrent ls = 0
  · simp [h0]
  · by_cases h1 : ls.any (fun l => l.currentStock ≤ l.minimumLevel)
    · simp only [List.any_eq_true, decide_eq_true_eq] at h1
      rcases h1 with ⟨l, hl, hle⟩
      have : ¬ ∀ l ∈ ls, l.minimumLevel < l.currentStock := by
        push_neg
        exact ⟨l, hl, hle⟩
      simp [h0, List.any_eq_true, this]
    · simp only [List.any_eq_true, decide_eq_true_eq, not_exists,
        not_and] at h1
      have : ∀ l ∈ ls, l.minimumLevel < l.currentStock := by
        intro l hl
        have := h1 l hl
        omega
      simp only [h0, if_false, List.any_eq_true, decide_eq_true_eq]
      constructor
      · intro _
        exact ⟨h0, this⟩
      · intro _
        split
        · rename_i hh
          rcases hh with ⟨l, hl, hle⟩
          exact absurd hle (h1 l hl)
        · rfl

theorem deriveStockStatus_mem (ls : List StockLevel) :
    deriveStockStatus ls = .OUT_OF_STOCK ∨ deriveStockStatus ls = .LOW_STOCK ∨
      deriveStockStatus ls = .IN_STOCK := by
  unfold deriveStockStatus
  by_cases h0 : totalCurrent ls = 0
  · simp [h0]
  · cases hm : listMin (ls.map (fun l => l.minimumLevel)) with
    | none => simp [h0, hm]
    | some m =>
      by_cases hle : totalCurrent ls ≤ m
      · simp [h0, hm, hle]
      · simp [h0, hm, hle]

theorem sweepItem_aligned (i : InventoryItem) :
    ((sweepItem i).1).stockStatus =
      deriveStockStatus ((sweepItem i).1).stockLevels := by
  unfold sweepItem
  by_cases h : i.stockStatus = deriveStockStatus i.stockLevels
  · simp [h]
  · simp only [h, if_false]
    rw [saveItem_stockStatus, saveItem_stockLevels]
    exact (deriveStockStatus_map recomputeLevel (fun l => rfl)
      (fun l => rfl) i.stockLevels).symm

theorem sweepItem_no_write_of_aligned {i : InventoryItem}
    (h : i.stockStatus = deriveStockStatus i.stockLevels) :
    sweepItem i = (i, false) := by
  unfold sweepItem
  simp [h]

/-- C1: after any document save of an inventory item — including the save at
the end of `updateStockLevels`, whose result also passes through the
recompute pass — every stock level satisfies
`availableStock = max(0, currentStock - reservedStock)`, a missing
`reservedStock` counting as 0. -/
theorem C1_availability_clamped :
    (∀ item : InventoryItem, ∀ l ∈ (saveItem item).stockLevels,
      l.availableStock = max 0 (l.currentStock - orZero l.reservedStock)) ∧
    (∀ (dto : CreateTransactionDto) (item item' : InventoryItem),
      updateStockLevels dto item = .ok item' →
      ∀ l ∈ item'.stockLevels,
        l.availableStock = max 0 (l.currentStock - orZero l.reservedStock)) := by
  constructor
  · intro item l hl
    rw [saveItem_stockLevels] at hl
    exact availableStock_clamped_of_mem_map _ l hl
  · intro dto item item' h l hl
    rcases updateStockLevels_ok_inv h with ⟨ls, -, rfl⟩
    rw [persistItem_stockLevels] at hl
    exact availableStock_clamped_of_mem_map _ l hl

theorem C1_witness :
    ((⟨1, 5, some 0, 5, 0⟩ : StockLevel) ∈
      (saveItem ⟨[⟨1, 5, none, 99, 0⟩], .IN_STOCK⟩).stockLevels) ∧
    (⟨1, 5, some 0, 5, 0⟩ : StockLevel).availableStock =
      max 0 ((⟨1, 5, some 0, 5, 0⟩ : StockLevel).currentStock -
        orZero (⟨1, 5, some 0, 5, 0⟩ : StockLevel).reservedStock) :=
  ⟨by decide,
    C1_availability_clamped.1 ⟨[⟨1, 5, none, 99, 0⟩], .IN_STOCK⟩ _ (by decide)⟩

/-- C2 fails as stated: the computed item view of `calculateItemStats` does
not use the total-versus-minimum LOW_STOCK rule. On an item stocked at two
locations (5 of 10 minimum at one, 100 of 0 minimum at the other) the view
reports LOW_STOCK while the claimed rule — and the rule the save path
actually applies — gives IN_STOCK. -/
theorem C2_counterexample :
    calculateItemStatsStatus
        [⟨1, 5, some 0, 5, 10⟩, ⟨2, 100, some 0, 100, 0⟩] = .LOW_STOCK ∧
    specStatusRule
        [⟨1, 5, some 0, 5, 10⟩, ⟨2, 100, some 0, 100, 0⟩] = .IN_STOCK ∧
    deriveStockStatus
        [⟨1, 5, some 0, 5, 10⟩, ⟨2, 100, some 0, 100, 0⟩] = .IN_STOCK := by
  decide

/-- C2 as amended: on every save the stored status follows the claimed rule
(OUT_OF_STOCK iff total current stock is 0, LOW_STOCK iff the nonzero total
is at most every per-location minimum, IN_STOCK otherwise), but the computed
view of `calculateItemStats` is OUT_OF_STOCK iff the total is 0, LOW_STOCK
iff the total is nonzero and some single location has
`currentStock ≤ minimumLevel`, and IN_STOCK otherwise. -/
theorem C2_status_rules :
    (∀ item : InventoryItem,
      (saveItem item).stockStatus = specStatusRule item.stockLevels) ∧
    (∀ ls : List StockLevel,
      (calculateItemStatsStatus ls = .OUT_OF_STOCK ↔ totalCurrent ls = 0) ∧
      (calculateItemStatsStatus ls = .LOW_STOCK ↔
        totalCurrent ls ≠ 0 ∧ ∃ l ∈ ls, l.currentStock ≤ l.minimumLevel) ∧
      (calculateItemStatsStatus ls = .IN_STOCK ↔
        totalCurrent ls ≠ 0 ∧ ∀ l ∈ ls, l.minimumLevel < l.currentStock)) :=
  ⟨fun item => by rw [saveItem_stockStatus, deriveStockStatus_eq_spec],
    fun ls => ⟨calculateItemStatsStatus_out_iff ls,
      calculateItemStatsStatus_low_iff ls, calculateItemStatsStatus_in_iff ls⟩⟩

theorem C2_witness :
    (saveItem ⟨[⟨1, 5, some 0, 5, 10⟩], .OUT_OF_STOCK⟩).stockStatus =
      specStatusRule [⟨1, 5, some 0, 5, 10⟩] :=
  C2_status_rules.1 ⟨[⟨1, 5, some 0, 5, 10⟩], .OUT_OF_STOCK⟩

/-- C7: the reconciliation sweep writes exactly the items whose stored
status disagrees with the derived one, and a second consecutive run with no
intervening transactions performs zero writes. -/
theorem C7_reconciliation_idempotent (items : List InventoryItem) :
    (handleStockStatusAlignment (handleStockStatusAlignment items).1).2 = 0 ∧
    (handleStockStatusAlignment items).2 =
      (items.filter (fun i =>
        decide (i.stockStatus ≠ deriveStockStatus i.stockLevels))).length := by
  constructor
  · simp only [handleStockStatusAlignment]
    rw [List.length_eq_zero, List.filter_eq_nil_iff]
    intro x hx
    rcases List.mem_map.mp hx with ⟨y, hy, rfl⟩
    rcases List.mem_map.mp hy with ⟨z, hz, rfl⟩
    rcases List.mem_map.mp hz with ⟨w, hw, rfl⟩
    rw [sweepItem_no_write_of_aligned (sweepItem_aligned w)]
    simp
  · simp only [handleStockStatusAlignment]
    rw [List.filter_map, List.length_map]
    congr 1
    apply List.filter_congr
    intro i _
    simp only [Function.comp_apply]
    unfold sweepItem
    by_cases h : i.stockStatus = deriveStockStatus i.stockLevels <;> simp [h]

theorem C7_witness :
    (handleStockStatusAlignment (handleStockStatusAlignment
      [⟨[⟨1, 5, some 0, 5, 10⟩], .IN_STOCK⟩]).1).2 = 0 ∧
    (handleStockStatusAlignment [⟨[⟨1, 5, some 0, 5, 10⟩], .IN_STOCK⟩]).2 =
      (([⟨[⟨1, 5, some 0, 5, 10⟩], .IN_STOCK⟩] : List InventoryItem).filter
        (fun i =>
          decide (i.stockStatus ≠ deriveStockStatus i.stockLevels))).length :=
  C7_reconciliation_idempotent [⟨[⟨1, 5, some 0, 5, 10⟩], .IN_STOCK⟩]

/-- C3: a TRANSFER of quantity Q from location A to location B, when both
locations are present in the item's stock levels, A and B are the two
distinct endpoints of the transfer and A holds at least Q, succeeds, leaves
A with `preStock(A) - Q`, B with `preStock(B) + Q`, and preserves the sum of
the two locations' current stock. -/
theorem C3_transfer_conservation (id A B : Nat) (Q : Int)
    (item : InventoryItem) (la lb : StockLevel)
    (hAB : A ≠ B)
    (hA : findLevel A item.stockLevels = some la)
    (hB : findLevel B item.stockLevels = some lb)
    (hQ : Q ≤ la.currentStock) :
    ((updateStockLevels ⟨id, .TRANSFER, Q, some A, some B⟩ item).toOption.bind
        (fun it => findLevel A it.stockLevels)).map (fun l => l.currentStock) =
      some (la.currentStock - Q) ∧
    ((updateStockLevels ⟨id, .TRANSFER, Q, some A, some B⟩ item).toOption.bind
        (fun it => findLevel B it.stockLevels)).map (fun l => l.currentStock) =
      some (lb.currentStock + Q) ∧
    (la.currentStock - Q) + (lb.currentStock + Q) =
      la.currentStock + lb.currentStock := by
  have hdisp : dispatchMutation ⟨id, .TRANSFER, Q, some A, some B⟩
      item.stockLevels =
      .ok (updateFirstLevel B
        (fun l => { l with currentStock := l.currentStock + Q })
        (updateFirstLevel A
          (fun l => { l with currentStock := l.currentStock - Q })
          item.stockLevels)) := by
    simp only [dispatchMutation, hA, hB]
    rw [if_neg (not_lt.mpr hQ)]
  rw [updateStockLevels_ok_of hdisp]
  have hfA : findLevel A
      (updateFirstLevel B (fun l => { l with currentStock := l.currentStock + Q })
        (updateFirstLevel A (fun l => { l with currentStock := l.currentStock - Q })
          item.stockLevels)) =
      some { la with currentStock := la.currentStock - Q } := by
    rw [findLevel_updateFirst_ne A B
          (fun l => { l with currentStock := l.currentStock + Q })
          (fun l => rfl) (Ne.symm hAB),
        findLevel_updateFirst_self A
          (fun l => { l with currentStock := l.currentStock - Q })
          (fun l => rfl), hA]
    rfl
  have hfB : findLevel B
      (updateFirstLevel B (fun l => { l with currentStock := l.currentStock + Q })
        (updateFirstLevel A (fun l => { l with currentStock := l.currentStock - Q })
          item.stockLevels)) =
      some { lb with currentStock := lb.currentStock + Q } := by
    rw [findLevel_updateFirst_self B
          (fun l => { l with currentStock := l.currentStock + Q })
          (fun l => rfl),
        findLevel_updateFirst_ne B A
          (fun l => { l with currentStock := l.currentStock - Q })
          (fun l => rfl) hAB, hB]
    rfl
  refine ⟨?_, ?_, by omega⟩
  · simp only [Except.toOption, Option.bind, persistItem_stockLevels,
      findLevel_map recomputeLevel (fun l => rfl), hfA]
    rfl
  · simp only [Except.toOption, Option.bind, persistItem_stockLevels,
      findLevel_map recomputeLevel (fun l => rfl), hfB]
    rfl

theorem C3_witness :
    ((updateStockLevels ⟨0, .TRANSFER, 4, some 1, some 2⟩
        ⟨[⟨1, 10, some 0, 10, 0⟩, ⟨2, 1, some 0, 1, 0⟩], .IN_STOCK⟩).toOption.bind
      (fun it => findLevel 1 it.stockLevels)).map (fun l => l.currentStock) =
        some 6 ∧
    ((updateStockLevels ⟨0, .TRANSFER, 4, some 1, some 2⟩
        ⟨[⟨1, 10, some 0, 10, 0⟩, ⟨2, 1, some 0, 1, 0⟩], .IN_STOCK⟩).toOption.bind
      (fun it => findLevel 2 it.stockLevels)).map (fun l => l.currentStock) =
        some 5 ∧
    ((10 : Int) - 4) + (1 + 4) = 10 + 1 :=
  C3_transfer_conservation 0 1 2 4
    ⟨[⟨1, 10, some 0, 10, 0⟩, ⟨2, 1, some 0, 1, 0⟩], .IN_STOCK⟩
    ⟨1, 10, some 0, 10, 0⟩ ⟨2, 1, some 0, 1, 0⟩
    (by decide) (by decide) (by decide) (by decide)

/-- C9: no positivity validation exists on transaction quantity; a
decrease-type transaction (SALE, CONSUMPTION, DAMAGE, MAINTENANCE,
ADJUSTMENT_OUT) with a negative quantity passes the insufficiency check
(`currentStock < quantity` is false when `currentStock ≥ 0 > quantity`) and
increases the source location's current stock by the quantity's absolute
value. -/
theorem C9_negative_quantity_increases (id A : Nat) (q : Int)
    (tl : Option Nat) (tt : TransactionType) (item : InventoryItem)
    (lvl : StockLevel)
    (htt : isDecreaseType tt = true)
    (hA : findLevel A item.stockLevels = some lvl)
    (hcur : 0 ≤ lvl.currentStock)
    (hq : q < 0) :
    ((updateStockLevels ⟨id, tt, q, some A, tl⟩ item).toOption.bind
        (fun it => findLevel A it.stockLevels)).map (fun l => l.currentStock) =
      some (lvl.currentStock + (-q)) ∧ 0 < -q := by
  have hnl : ¬ lvl.currentStock < q := not_lt.mpr (le_of_lt (lt_of_lt_of_le hq hcur))
  have hdisp : dispatchMutation ⟨id, tt, q, some A, tl⟩ item.stockLevels =
      .ok (updateFirstLevel A
        (fun l => { l with currentStock := l.currentStock - q })
        item.stockLevels) := by
    rw [dispatchMutation_decrease htt]
    simp only [hA]
    rw [if_neg hnl]
  rw [updateStockLevels_ok_of hdisp]
  have hfA : findLevel A
      (updateFirstLevel A (fun l => { l with currentStock := l.currentStock - q })
        item.stockLevels) =
      some { lvl with currentStock := lvl.currentStock - q } := by
    rw [findLevel_updateFirst_self A
          (fun l => { l with currentStock := l.currentStock - q })
          (fun l => rfl), hA]
    rfl
  constructor
  · have heq : lvl.currentStock + (-q) = lvl.currentStock - q := by omega
    rw [heq]
    simp only [Except.toOption, Option.bind, persistItem_stockLevels,
      findLevel_map recomputeLevel (fun l => rfl), hfA]
    rfl
  · omega

theorem C9_witness :
    ((updateStockLevels ⟨0, .SALE, -7, some 1, none⟩
        ⟨[⟨1, 3, some 0, 3, 0⟩], .IN_STOCK⟩).toOption.bind
      (fun it => findLevel 1 it.stockLevels)).map (fun l => l.currentStock) =
        some ((3 : Int) + 7) ∧ (0 : Int) < 7 :=
  C9_negative_quantity_increases 0 1 (-7) none .SALE
    ⟨[⟨1, 3, some 0, 3, 0⟩], .IN_STOCK⟩ ⟨1, 3, some 0, 3, 0⟩
    (by decide) (by decide) (by decide) (by decide)

/-- C5: an ALLOCATION whose quantity exceeds
`currentStock - reservedStock` at the source location is rejected with a
BadRequest-class error and no item state changes (in particular
reservedStock); otherwise reservedStock at the source rises by exactly the
quantity and currentStock is unchanged at every location of the item. -/
theorem C5_allocation_guard (id A : Nat) (Q : Int) (tl : Option Nat)
    (st : LedgerState) (item : InventoryItem) (lvl : StockLevel)
    (hA : findLevel A item.stockLevels = some lvl) :
    (lvl.currentStock - orZero lvl.reservedStock < Q →
      updateStockLevels ⟨id, .ALLOCATION, Q, some A, tl⟩ item =
        .error .insufficientAvailableStock ∧
      TxError.isBadRequest .insufficientAvailableStock = true ∧
      (lookupItem id st.items = some item →
        validateTransactionLocations ⟨id, .ALLOCATION, Q, some A, tl⟩
          st.locations = true →
        (createTransaction ⟨id, .ALLOCATION, Q, some A, tl⟩ st).1.items =
          st.items)) ∧
    (Q ≤ lvl.currentStock - orZero lvl.reservedStock →
      ((updateStockLevels ⟨id, .ALLOCATION, Q, some A, tl⟩ item).toOption.bind
          (fun it => findLevel A it.stockLevels)).map
            (fun l => orZero l.reservedStock) =
        some (orZero lvl.reservedStock + Q) ∧
      (updateStockLevels ⟨id, .ALLOCATION, Q, some A, tl⟩ item).toOption.map
          (fun it => it.stockLevels.map (fun l => (l.location, l.currentStock))) =
        some (item.stockLevels.map (fun l => (l.location, l.currentStock)))) := by
  constructor
  · intro hlt
    have hdisp : dispatchMutation ⟨id, .ALLOCATION, Q, some A, tl⟩
        item.stockLevels = .error .insufficientAvailableStock := by
      simp only [dispatchMutation, hA]
      rw [if_pos hlt]
    have herr : updateStockLevels ⟨id, .ALLOCATION, Q, some A, tl⟩ item =
        .error .insufficientAvailableStock :=
      updateStockLevels_error_of hdisp
    refine ⟨herr, rfl, ?_⟩
    intro hlook hval
    simp only [createTransaction, hlook, hval, if_true, herr]
  · intro hge
    have hdisp : dispatchMutation ⟨id, .ALLOCATION, Q, some A, tl⟩
        item.stockLevels =
        .ok (updateFirstLevel A
          (fun l =>
            { l with
              reservedStock := some (orZero lvl.reservedStock + Q),
              availableStock :=
                max 0 (l.currentStock - (orZero lvl.reservedStock + Q)) })
          item.stockLevels) := by
      simp only [dispatchMutation, hA]
      rw [if_neg (not_lt.mpr hge)]
    rw [updateStockLevels_ok_of hdisp]
    constructor
    · have hfA : findLevel A
          (updateFirstLevel A
            (fun l =>
              { l with
                reservedStock := some (orZero lvl.reservedStock + Q),
                availableStock :=
                  max 0 (l.currentStock - (orZero lvl.reservedStock + Q)) })
            item.stockLevels) =
          some { lvl with
            reservedStock := some (orZero lvl.reservedStock + Q),
            availableStock :=
              max 0 (lvl.currentStock - (orZero lvl.reservedStock + Q)) } := by
        rw [findLevel_updateFirst_self A
              (fun l =>
                { l with
                  reservedStock := some (orZero lvl.reservedStock + Q),
                  availableStock :=
                    max 0 (l.currentStock - (orZero lvl.reservedStock + Q)) })
              (fun l => rfl), hA]
        rfl
      simp only [Except.toOption, Option.bind, persistItem_stockLevels,
        findLevel_map recomputeLevel (fun l => rfl), hfA]
      rfl
    · simp only [Except.toOption, Option.map, persistItem_stockLevels]
      rw [map_proj_map recomputeLevel
            (fun l => (l.location, l.currentStock)) (fun l => rfl),
          map_proj_map recomputeLevel
            (fun l => (l.location, l.currentStock)) (fun l => rfl),
          map_proj_updateFirst (fun l => (l.location, l.currentStock)) A
            (fun l =>
              { l with
                reservedStock := some (orZero lvl.reservedStock + Q),
                availableStock :=
                  max 0 (l.currentStock - (orZero lvl.reservedStock + Q)) })
            (fun l => rfl)]

theorem C5_witness :
    ((updateStockLevels ⟨0, .ALLOCATION, 3, some 1, none⟩
        ⟨[⟨1, 10, some 2, 8, 0⟩], .IN_STOCK⟩).toOption.bind
      (fun it => findLevel 1 it.stockLevels)).map
        (fun l => orZero l.reservedStock) =
      some (orZero (some 2) + 3) ∧
    (updateStockLevels ⟨0, .ALLOCATION, 3, some 1, none⟩
        ⟨[⟨1, 10, some 2, 8, 0⟩], .IN_STOCK⟩).toOption.map
      (fun it => it.stockLevels.map (fun l => (l.location, l.currentStock))) =
      some (([⟨1, 10, some 2, 8, 0⟩] : List StockLevel).map
        (fun l => (l.location, l.currentStock))) :=
  (C5_allocation_guard 0 1 3 none ⟨[], [], []⟩
    ⟨[⟨1, 10, some 2, 8, 0⟩], .IN_STOCK⟩ ⟨1, 10, some 2, 8, 0⟩
    (by decide)).2 (by decide)

/-- C4: a decrease-type transaction whose quantity exceeds the source
location's current stock is rejected with the BadRequest insufficient-stock
error; no stock level of the item is mutated, and the only record of the
attempt is the transaction shell, whose `stockAfter` is never populated. -/
theorem C4_sufficiency_guard (A : Nat) (dto : CreateTransactionDto)
    (st : LedgerState) (item : InventoryItem) (lvl : StockLevel)
    (hdec : isDecreaseType dto.transactionType = true)
    (hfrom : dto.fromLocation = some A)
    (hlook : lookupItem dto.inventoryItem st.items = some item)
    (hval : validateTransactionLocations dto st.locations = true)
    (hA : findLevel A item.stockLevels = some lvl)
    (hlt : lvl.currentStock < dto.quantity) :
    (createTransaction dto st).2 = some .insufficientStock ∧
    TxError.isBadRequest .insufficientStock = true ∧
    (createTransaction dto st).1.items = st.items ∧
    (createTransaction dto st).1.transactions =
      st.transactions ++ [mkTxnShell dto item] ∧
    (mkTxnShell dto item).stockAfter = none := by
  have hdisp : dispatchMutation dto item.stockLevels =
      .error .insufficientStock := by
    rw [dispatchMutation_decrease hdec]
    simp only [hfrom, hA]
    rw [if_pos hlt]
  have herr : updateStockLevels dto item = .error .insufficientStock :=
    updateStockLevels_error_of hdisp
  refine ⟨?_, rfl, ?_, ?_, rfl⟩ <;>
    simp only [createTransaction, hlook, hval, if_true, herr]

theorem C4_witness :
    (createTransaction ⟨7, .SALE, 20, some 1, none⟩
      ⟨[(7, ⟨[⟨1, 10, some 0, 10, 20⟩], .LOW_STOCK⟩)], [1], []⟩).2 =
        some .insufficientStock ∧
    TxError.isBadRequest .insufficientStock = true ∧
    (createTransaction ⟨7, .SALE, 20, some 1, none⟩
      ⟨[(7, ⟨[⟨1, 10, some 0, 10, 20⟩], .LOW_STOCK⟩)], [1], []⟩).1.items =
      [(7, ⟨[⟨1, 10, some 0, 10, 20⟩], .LOW_STOCK⟩)] ∧
    (createTransaction ⟨7, .SALE, 20, some 1, none⟩
      ⟨[(7, ⟨[⟨1, 10, some 0, 10, 20⟩], .LOW_STOCK⟩)], [1], []⟩).1.transactions =
      [] ++ [mkTxnShell ⟨7, .SALE, 20, some 1, none⟩
        ⟨[⟨1, 10, some 0, 10, 20⟩], .LOW_STOCK⟩] ∧
    (mkTxnShell ⟨7, .SALE, 20, some 1, none⟩
      ⟨[⟨1, 10, some 0, 10, 20⟩], .LOW_STOCK⟩).stockAfter = none :=
  C4_sufficiency_guard 1 ⟨7, .SALE, 20, some 1, none⟩
    ⟨[(7, ⟨[⟨1, 10, some 0, 10, 20⟩], .LOW_STOCK⟩)], [1], []⟩
    ⟨[⟨1, 10, some 0, 10, 20⟩], .LOW_STOCK⟩ ⟨1, 10, some 0, 10, 20⟩
    (by decide) (by decide) (by decide) (by decide) (by decide) (by decide)

/-- C6: failures of item lookup or location-registry validation happen
before any write and leave the whole state unchanged; a dispatch failure
after the shell insert leaves exactly the persisted shell — `stockBefore`
set, `stockAfter` never populated — with the items unchanged and no
rollback of the shell. -/
theorem C6_failure_semantics (dto : CreateTransactionDto) (st : LedgerState) :
    (lookupItem dto.inventoryItem st.items = none →
      createTransaction dto st = (st, some .itemNotFound)) ∧
    (∀ item, lookupItem dto.inventoryItem st.items = some item →
      validateTransactionLocations dto st.locations = false →
      createTransaction dto st = (st, some .invalidLocations)) ∧
    (∀ item e, lookupItem dto.inventoryItem st.items = some item →
      validateTransactionLocations dto st.locations = true →
      updateStockLevels dto item = .error e →
      createTransaction dto st =
        ({ st with transactions := st.transactions ++ [mkTxnShell dto item] },
          some e) ∧
      (mkTxnShell dto item).stockBefore =
        some (totalCurrent item.stockLevels) ∧
      (mkTxnShell dto item).stockAfter = none) := by
  refine ⟨?_, ?_, ?_⟩
  · intro h
    simp only [createTransaction, h]
  · intro item h hv
    simp only [createTransaction, h, hv, Bool.false_eq_true, if_false]
  · intro item e h hv herr
    refine ⟨?_, rfl, rfl⟩
    simp only [createTransaction, h, hv, if_true, herr]

theorem C6_witness :
    createTransaction ⟨9, .SALE, 1, some 1, none⟩
      ⟨[(7, ⟨[⟨1, 5, some 0, 5, 0⟩], .IN_STOCK⟩)], [1], []⟩ =
      (⟨[(7, ⟨[⟨1, 5, some 0, 5, 0⟩], .IN_STOCK⟩)], [1], []⟩,
        some .itemNotFound) ∧
    createTransaction ⟨7, .PURCHASE, 1, none, some 2⟩
      ⟨[(7, ⟨[⟨1, 5, some 0, 5, 0⟩], .IN_STOCK⟩)], [1], []⟩ =
      (⟨[(7, ⟨[⟨1, 5, some 0, 5, 0⟩], .IN_STOCK⟩)], [1], []⟩,
        some .invalidLocations) ∧
    createTransaction ⟨7, .SALE, 10, some 1, none⟩
      ⟨[(7, ⟨[⟨1, 5, some 0, 5, 0⟩], .IN_STOCK⟩)], [1], []⟩ =
      (⟨[(7, ⟨[⟨1, 5, some 0, 5, 0⟩], .IN_STOCK⟩)], [1],
          [mkTxnShell ⟨7, .SALE, 10, some 1, none⟩
            ⟨[⟨1, 5, some 0, 5, 0⟩], .IN_STOCK⟩]⟩,
        some .insufficientStock) ∧
    (mkTxnShell ⟨7, .SALE, 10, some 1, none⟩
      ⟨[⟨1, 5, some 0, 5, 0⟩], .IN_STOCK⟩).stockBefore = some 5 ∧
    (mkTxnShell ⟨7, .SALE, 10, some 1, none⟩
      ⟨[⟨1, 5, some 0, 5, 0⟩], .IN_STOCK⟩).stockAfter = none :=
  ⟨(C6_failure_semantics ⟨9, .SALE, 1, some 1, none⟩
      ⟨[(7, ⟨[⟨1, 5, some 0, 5, 0⟩], .IN_STOCK⟩)], [1], []⟩).1 (by decide),
    (C6_failure_semantics ⟨7, .PURCHASE, 1, none, some 2⟩
      ⟨[(7, ⟨[⟨1, 5, some 0, 5, 0⟩], .IN_STOCK⟩)], [1], []⟩).2.1
      ⟨[⟨1, 5, some 0, 5, 0⟩], .IN_STOCK⟩ (by decide) (by decide),
    ((C6_failure_semantics ⟨7, .SALE, 10, some 1, none⟩
      ⟨[(7, ⟨[⟨1, 5, some 0, 5, 0⟩], .IN_STOCK⟩)], [1], []⟩).2.2
      ⟨[⟨1, 5, some 0, 5, 0⟩], .IN_STOCK⟩ .insufficientStock
      (by decide) (by decide) (by rfl)).1,
    (by decide), (by decide)⟩

/-- C10: every document save overwrites `stockStatus` with the value derived
from the stock levels, which is always one of IN_STOCK, LOW_STOCK or
OUT_OF_STOCK; ON_ORDER, DISCONTINUED and QUARANTINED never survive a save,
whatever status the caller had set. -/
theorem C10_save_overwrites_status (item : InventoryItem) :
    (saveItem item).stockStatus = deriveStockStatus item.stockLevels ∧
    ((saveItem item).stockStatus = .IN_STOCK ∨
      (saveItem item).stockStatus = .LOW_STOCK ∨
      (saveItem item).stockStatus = .OUT_OF_STOCK) ∧
    (saveItem item).stockStatus ≠ .ON_ORDER ∧
    (saveItem item).stockStatus ≠ .DISCONTINUED ∧
    (saveItem item).stockStatus ≠ .QUARANTINED := by
  refine ⟨rfl, ?_, ?_, ?_, ?_⟩ <;>
  · rw [saveItem_stockStatus]
    rcases deriveStockStatus_mem item.stockLevels with h | h | h <;> simp [h]

theorem C10_witness :
    (saveItem ⟨[⟨1, 5, some 0, 5, 0⟩], .QUARANTINED⟩).stockStatus =
      deriveStockStatus [⟨1, 5, some 0, 5, 0⟩] ∧
    ((saveItem ⟨[⟨1, 5, some 0, 5, 0⟩], .QUARANTINED⟩).stockStatus =
        .IN_STOCK ∨
      (saveItem ⟨[⟨1, 5, some 0, 5, 0⟩], .QUARANTINED⟩).stockStatus =
        .LOW_STOCK ∨
      (saveItem ⟨[⟨1, 5, some 0, 5, 0⟩], .QUARANTINED⟩).stockStatus =
        .OUT_OF_STOCK) ∧
    (saveItem ⟨[⟨1, 5, some 0, 5, 0⟩], .QUARANTINED⟩).stockStatus ≠
      .ON_ORDER ∧
    (saveItem ⟨[⟨1, 5, some 0, 5, 0⟩], .QUARANTINED⟩).stockStatus ≠
      .DISCONTINUED ∧
    (saveItem ⟨[⟨1, 5, some 0, 5, 0⟩], .QUARANTINED⟩).stockStatus ≠
      .QUARANTINED :=
  C10_save_overwrites_status ⟨[⟨1, 5, some 0, 5, 0⟩], .QUARANTINED⟩

/-- C8 fails as stated: an UNRESERVE_ALL at a location whose reservedStock
is already 0, with a caller-supplied quantity of 5, succeeds with the item
unchanged (net reserved change zero) yet appends a RETURN audit record of
quantity 5, because the append condition is the request's quantity being
positive, not the net change being nonzero. -/
theorem C8_counterexample :
    updateReservedStock ⟨0, 1, .UNRESERVE_ALL, some 5⟩
        ⟨[⟨1, 10, some 0, 10, 0⟩], .IN_STOCK⟩ [] =
      .ok (⟨[⟨1, 10, some 0, 10, 0⟩], .IN_STOCK⟩,
        [⟨.RETURN, 5, some 1, none, none, none⟩]) ∧
    (findLevel 1 [⟨1, 10, some 0, 10, 0⟩]).map
      (fun l => orZero l.reservedStock) = some 0 :=
  ⟨rfl, rfl⟩

/-- C8 as amended: on a successful `updateReservedStock` at a present
location, the audit record (ALLOCATION for INCREASE, RETURN for DECREASE
and UNRESERVE_ALL, with `fromLocation` the given location and no
`toLocation`) is appended iff the effective quantity — the prior reserved
amount for UNRESERVE_ALL when that amount is positive, the requested
quantity otherwise — is positive; hence an UNRESERVE_ALL with no positive
prior reservation but a positive requested quantity appends a record
despite a zero net reserved change. UNRESERVE_ALL always sets reservedStock
to 0, and a positive released amount becomes the recorded quantity. -/
theorem C8_reserved_stock_audit (dto : ReservedStockUpdateDto)
    (item item' : InventoryItem) (txns txns' : List TxnRecord)
    (lvl : StockLevel)
    (hfind : findLevel dto.location item.stockLevels = some lvl)
    (hok : updateReservedStock dto item txns = .ok (item', txns')) :
    (dto.action = .UNRESERVE_ALL →
      (findLevel dto.location item'.stockLevels).map
          (fun l => orZero l.reservedStock) = some 0 ∧
      (0 < orZero lvl.reservedStock →
        txns' = txns ++ [⟨.RETURN, orZero lvl.reservedStock,
          some dto.location, none, none, none⟩]) ∧
      (orZero lvl.reservedStock ≤ 0 →
        txns' = txns ++
          (match dto.quantity with
           | some q =>
             if 0 < q then
               [⟨.RETURN, q, some dto.location, none, none, none⟩]
             else []
           | none => []))) ∧
    (∀ q, dto.quantity = some q →
      (dto.action = .INCREASE →
        (findLevel dto.location item'.stockLevels).map
            (fun l => orZero l.reservedStock) =
          some (orZero lvl.reservedStock + q) ∧
        txns' = txns ++
          (if 0 < q then
            [⟨.ALLOCATION, q, some dto.location, none, none, none⟩]
          else [])) ∧
      (dto.action = .DECREASE →
        (findLevel dto.location item'.stockLevels).map
            (fun l => orZero l.reservedStock) =
          some (orZero lvl.reservedStock - q) ∧
        txns' = txns ++
          (if 0 < q then
            [⟨.RETURN, q, some dto.location, none, none, none⟩]
          else []))) := by
  rcases dto with ⟨iid, loc, act, qty⟩
  simp only at hfind ⊢
  cases act
  case INCREASE =>
    refine ⟨fun h => absurd h (by decide), ?_⟩
    intro q hq
    refine ⟨fun _ => ?_, fun h => absurd h (by decide)⟩
    subst hq
    simp only [updateReservedStock] at hok
    split at hok
    · exact absurd hok (by simp)
    · simp only [hfind] at hok
      by_cases hc : lvl.currentStock - orZero lvl.reservedStock < orZero (some q)
      · simp only [hc, if_true] at hok
        exact absurd hok (by simp)
      · simp only [hc, if_false, effectiveQuantity, Except.ok.injEq,
          Prod.mk.injEq] at hok
        obtain ⟨h1, h2⟩ := hok
        subst h1
        subst h2
        constructor
        · rw [saveItem_stockLevels,
            findLevel_map recomputeLevel (fun l => rfl),
            findLevel_updateFirst_found _ rfl hfind]
          rfl
        · by_cases hp : 0 < q <;> simp [hp, orZero]
  case DECREASE =>
    refine ⟨fun h => absurd h (by decide), ?_⟩
    intro q hq
    refine ⟨fun h => absurd h (by decide), fun _ => ?_⟩
    subst hq
    simp only [updateReservedStock] at hok
    split at hok
    · exact absurd hok (by simp)
    · simp only [hfind] at hok
      by_cases hc : orZero lvl.reservedStock < orZero (some q)
      · simp only [hc, if_true] at hok
        exact absurd hok (by simp)
      · simp only [hc, if_false, effectiveQuantity, Except.ok.injEq,
          Prod.mk.injEq] at hok
        obtain ⟨h1, h2⟩ := hok
        subst h1
        subst h2
        constructor
        · rw [saveItem_stockLevels,
            findLevel_map recomputeLevel (fun l => rfl),
            findLevel_updateFirst_found _ rfl hfind]
          rfl
        · by_cases hp : 0 < q <;> simp [hp, orZero]
  case UNRESERVE_ALL =>
    simp only [updateReservedStock] at hok
    split at hok
    · exact absurd hok (by simp)
    · simp only [hfind, effectiveQuantity, Except.ok.injEq,
        Prod.mk.injEq] at hok
      obtain ⟨h1, h2⟩ := hok
      subst h1
      subst h2
      refine ⟨fun _ => ⟨?_, ?_, ?_⟩,
        fun q hq => ⟨fun h => absurd h (by decide),
          fun h => absurd h (by decide)⟩⟩
      · rw [saveItem_stockLevels,
          findLevel_map recomputeLevel (fun l => rfl),
          findLevel_updateFirst_found _ rfl hfind]
        rfl
      · intro hr
        simp [hr]
      · intro hr
        rw [if_neg (not_lt.mpr hr)]
        cases qty with
        | none => simp
        | some q => by_cases hp : 0 < q <;> simp [hp]

theorem C8_witness :
    ((findLevel 1 ((saveItem
        ⟨updateFirstLevel 1 (fun _ => ⟨1, 10, some 3, 7, 0⟩)
          [⟨1, 10, some 0, 10, 0⟩], StockStatus.IN_STOCK⟩).stockLevels)).map
      (fun l => orZero l.reservedStock) = some (orZero (some 0) + 3)) ∧
    ([⟨.ALLOCATION, 3, some 1, none, none, none⟩] : List TxnRecord) =
      [] ++ (if (0 : Int) < 3 then
        [⟨.ALLOCATION, 3, some 1, none, none, none⟩] else []) :=
  ((C8_reserved_stock_audit ⟨0, 1, .INCREASE, some 3⟩
      ⟨[⟨1, 10, some 0, 10, 0⟩], .IN_STOCK⟩
      (saveItem ⟨updateFirstLevel 1 (fun _ => ⟨1, 10, some 3, 7, 0⟩)
        [⟨1, 10, some 0, 10, 0⟩], StockStatus.IN_STOCK⟩)
      [] [⟨.ALLOCATION, 3, some 1, none, none, none⟩]
      ⟨1, 10, some 0, 10, 0⟩ (by decide) (by rfl)).2 3 rfl).1 rfl

end Ofgen
